import Mathlib

/-!
# NEP-246 multi-token standard: events and transfer-call resolution

A shallow embedding of the `nep-246` repository
(`src/multi_token/events.rs`, `src/multi_token/core/receiver.rs`,
`src/multi_token/core/resolver.rs`,
`src/multi_token/approval/approval_receiver.rs`) together with theorems
checking the natural-language specification against it.

JSON values are modelled as an inductive tree whose objects keep their
fields in serialization order, mirroring what `serde_json` would render.
The serde attributes of `events.rs` (`skip_serializing_if = "Option::is_none"`,
`flatten`, `tag = "event", content = "data"`, `rename_all = "snake_case"`)
are embedded directly into the `toJson` functions below.

The three `core`/`approval` source files declare traits only; the
implementations of `mt_resolve_transfer`, the transfer-call entry point and
the approval-grant logic are not part of the repository snapshot, so they
are modelled from the specification (each such definition says so in its
doc comment).
-/

namespace Nep246

/-- `AccountId` from `near_sdk` is an opaque validated string. -/
abbrev AccountId := String

/-- `TokenId` from `multi_token/token.rs` (not in the snapshot): an opaque
string identifier. -/
abbrev TokenId := String

/-- A JSON value; objects carry their fields as an ordered list, the order
`serde_json` would write them in. -/
inductive Json where
  | null : Json
  | bool (b : Bool) : Json
  | num (n : Nat) : Json
  | str (s : String) : Json
  | arr (xs : List Json) : Json
  | obj (fields : List (String × Json)) : Json
deriving Repr

/-- The keys of a JSON object (empty for non-objects). -/
def Json.keys : Json → List String
  | .obj fields => fields.map Prod.fst
  | _ => []

/-- Look up a key in a JSON object. -/
def Json.getField (j : Json) (k : String) : Option Json :=
  match j with
  | .obj fields => (fields.lookup k)
  | _ => none

/-- `MtMint` record from `events.rs`: `owner_id`, `token_ids`, optional
`memo` (skipped when `None`). -/
structure MtMint where
  owner_id : AccountId
  token_ids : List String
  memo : Option String
deriving DecidableEq, Repr

/-- Serde serialization of `MtMint`: fields in declaration order, `memo`
omitted entirely when `None` (`skip_serializing_if = "Option::is_none"`). -/
def MtMint.toJson (m : MtMint) : Json :=
  Json.obj
    ([("owner_id", Json.str m.owner_id),
      ("token_ids", Json.arr (m.token_ids.map Json.str))]
     ++ (match m.memo with
         | none => []
         | some s => [("memo", Json.str s)]))

/-- `MtTransfer` record from `events.rs`: `old_owner_id`, `new_owner_id`,
`token_ids`, optional `authorized_id` and `memo`. -/
structure MtTransfer where
  old_owner_id : AccountId
  new_owner_id : AccountId
  token_ids : List String
  authorized_id : Option AccountId
  memo : Option String
deriving DecidableEq, Repr

/-- Serde serialization of `MtTransfer`; both optional fields are omitted
when `None`. -/
def MtTransfer.toJson (t : MtTransfer) : Json :=
  Json.obj
    ([("old_owner_id", Json.str t.old_owner_id),
      ("new_owner_id", Json.str t.new_owner_id),
      ("token_ids", Json.arr (t.token_ids.map Json.str))]
     ++ (match t.authorized_id with
         | none => []
         | some a => [("authorized_id", Json.str a)])
     ++ (match t.memo with
         | none => []
         | some s => [("memo", Json.str s)]))

/-- `MtBurn` record from `events.rs`: `owner_id`, `token_ids`, optional
`authorized_id` and `memo`. -/
structure MtBurn where
  owner_id : AccountId
  token_ids : List String
  authorized_id : Option AccountId
  memo : Option String
deriving DecidableEq, Repr

/-- Serde serialization of `MtBurn`; both optional fields are omitted when
`None`. -/
def MtBurn.toJson (b : MtBurn) : Json :=
  Json.obj
    ([("owner_id", Json.str b.owner_id),
      ("token_ids", Json.arr (b.token_ids.map Json.str))]
     ++ (match b.authorized_id with
         | none => []
         | some a => [("authorized_id", Json.str a)])
     ++ (match b.memo with
         | none => []
         | some s => [("memo", Json.str s)]))

/-- `Nep246EventKind` from `events.rs`: the three event kinds, each
carrying a slice of records. -/
inductive Nep246EventKind where
  | MtMint (data : List MtMint)
  | MtTransfer (data : List MtTransfer)
  | MtBurn (data : List MtBurn)
deriving DecidableEq, Repr

/-- The serde tag of each variant under
`#[serde(tag = "event", rename_all = "snake_case")]`. -/
def Nep246EventKind.tag : Nep246EventKind → String
  | .MtMint _ => "mt_mint"
  | .MtTransfer _ => "mt_transfer"
  | .MtBurn _ => "mt_burn"

/-- The serde content of each variant under `#[serde(content = "data")]`:
the record slice serialized as a JSON array, in order. -/
def Nep246EventKind.dataJson : Nep246EventKind → Json
  | .MtMint d => Json.arr (d.map MtMint.toJson)
  | .MtTransfer d => Json.arr (d.map MtTransfer.toJson)
  | .MtBurn d => Json.arr (d.map MtBurn.toJson)

/-- Serialization of `Nep246EventKind` as an adjacently tagged enum
(`tag = "event", content = "data"`): the two fields it contributes. -/
def Nep246EventKind.toFields (k : Nep246EventKind) : List (String × Json) :=
  [("event", Json.str k.tag), ("data", k.dataJson)]

/-- `Nep246Event` from `events.rs`: a `version` string plus a flattened
event kind. -/
structure Nep246Event where
  version : String
  event_kind : Nep246EventKind
deriving DecidableEq, Repr

/-- Serialization of `Nep246Event`: `version` first, then the flattened
(`#[serde(flatten)]`) fields of the event kind. -/
def Nep246Event.toFields (e : Nep246Event) : List (String × Json) :=
  ("version", Json.str e.version) :: e.event_kind.toFields

/-- Modelled from the spec: `NearEvent` lives in `crate::event`, which is
not in the repository snapshot. Per the spec's EventEnvelope
(`standard: "nep246"` first, then version, event tag, data) and NEP-297,
the wrapper prepends the `standard` field to the flattened inner event. -/
inductive NearEvent where
  | Nep246 (e : Nep246Event)
deriving DecidableEq, Repr

/-- JSON payload of the envelope: `standard` first, then the inner
event's fields. -/
def NearEvent.toJson : NearEvent → Json
  | .Nep246 e => Json.obj (("standard", Json.str "nep246") :: e.toFields)

/-- Modelled from the spec: `NearEvent::emit` (in the missing
`crate::event`) writes exactly one log line through the host's logging
primitive. We model the emission as the list of JSON payloads logged by
the call, one entry per log line. -/
def NearEvent.emit (ev : NearEvent) : List Json :=
  [ev.toJson]

/-- `new_246` from `events.rs`: wrap an event kind with a version. -/
def new_246 (version : String) (event_kind : Nep246EventKind) : NearEvent :=
  NearEvent.Nep246 ⟨version, event_kind⟩

/-- `new_246_v1` from `events.rs`: version is `"1.0.0"`. -/
def new_246_v1 (event_kind : Nep246EventKind) : NearEvent :=
  new_246 "1.0.0" event_kind

/-- `MtMint::emit_many` from `events.rs`. -/
def MtMint.emit_many (data : List MtMint) : List Json :=
  (new_246_v1 (Nep246EventKind.MtMint data)).emit

/-- `MtMint::emit` from `events.rs`: emit a singleton batch. -/
def MtMint.emit (m : MtMint) : List Json :=
  MtMint.emit_many [m]

/-- `MtTransfer::emit_many` from `events.rs`. -/
def MtTransfer.emit_many (data : List MtTransfer) : List Json :=
  (new_246_v1 (Nep246EventKind.MtTransfer data)).emit

/-- `MtTransfer::emit` from `events.rs`: emit a singleton batch. -/
def MtTransfer.emit (t : MtTransfer) : List Json :=
  MtTransfer.emit_many [t]

/-- `MtBurn::emit_many` from `events.rs`. -/
def MtBurn.emit_many (data : List MtBurn) : List Json :=
  (new_246_v1 (Nep246EventKind.MtBurn data)).emit

/-- `MtBurn::emit` from `events.rs`: emit a singleton batch. -/
def MtBurn.emit (b : MtBurn) : List Json :=
  MtBurn.emit_many [b]

/-!
## Transfer-call resolution protocol

`resolver.rs`, `receiver.rs` and `approval_receiver.rs` declare traits
only; the implementations behind `mt_transfer_call`, `mt_resolve_transfer`
and approval granting are not in the repository snapshot. The definitions
below are modelled from the specification's description of the protocol
and from the requirement comments on the traits.
-/

/-- A token as the protocol sees it: current owner plus the approval set,
one `(approved_account, approval_id)` pair per approving account. -/
structure Token where
  owner_id : AccountId
  approvals : List (AccountId × Nat)
deriving DecidableEq, Repr

/-- The error taxonomy of the spec (`ReceiverChainFailed` is not an error:
it is folded into the rollback outcome). -/
inductive MtError where
  | Unauthorized
  | TokenNotFound
  | SelfCallViolation
  | ApprovalStale
deriving DecidableEq, Repr

/-- Outcome of the receiver call chain as seen at resolve time: either the
chain settled with the boolean answer of `mt_on_transfer` (`true` means
"return the token to the sender", per `receiver.rs`), or the chain
failed/panicked. -/
inductive ChainOutcome where
  | resolved (returnToken : Bool)
  | failed
deriving DecidableEq, Repr

/-- The multi-token contract state visible to the protocol: its own
account id (for the self-call check), the Ownership Store / Approval
Ledger keyed by token id, and the host's account-validity oracle used for
best-effort approval restoration. -/
structure MtContract where
  account_id : AccountId
  tokens : List (TokenId × Token)
  valid_account : AccountId → Bool

/-- Overwrite one entry of a token map, leaving other tokens
untouched. -/
def setTokenList (id : TokenId) (t : Token) :
    List (TokenId × Token) → List (TokenId × Token)
  | [] => []
  | (k, v) :: rest =>
    if k = id then (k, t) :: rest else (k, v) :: setTokenList id t rest

/-- Overwrite the stored state of one token of the contract. -/
def MtContract.setToken (self : MtContract) (id : TokenId) (t : Token) :
    MtContract :=
  { self with tokens := setTokenList id t self.tokens }

/-- Best-effort restoration of an approval snapshot: keep only entries
whose account still validates; a missing snapshot restores nothing. -/
def restoredApprovals (valid : AccountId → Bool)
    (snapshot : Option (List (AccountId × Nat))) : List (AccountId × Nat) :=
  match snapshot with
  | none => []
  | some a => a.filter (fun p => valid p.1)

/-- Result of a protocol entry point: the post-call contract state (equal
to the input state when the call fails), the returned value or error, and
the JSON payloads of the log lines emitted during the call. -/
structure CallResult (α : Type) where
  state : MtContract
  outcome : Except MtError α
  logs : List Json

/-- Modelled from the spec: `mt_resolve_transfer` is declared in
`resolver.rs` as a trait method only; its behavior follows the trait's
requirement comments and the spec's finalize step. Checks the caller is
the contract itself (else `SelfCallViolation`), looks the token up (else
`TokenNotFound`), then: if the chain failed or resolved with `true`,
ownership reverts to `previous_owner_id` and the approval set is restored
from the snapshot (valid accounts only) and `false` is returned with no
event; if the chain resolved with `false` the token stays with
`receiver_id` with approvals cleared, an `mt_transfer` event is emitted
and `true` is returned. -/
def mt_resolve_transfer (self : MtContract) (caller : AccountId)
    (previous_owner_id receiver_id : AccountId) (token_id : TokenId)
    (approvals : Option (List (AccountId × Nat)))
    (chain : ChainOutcome) : CallResult Bool :=
  if caller ≠ self.account_id then
    ⟨self, Except.error MtError.SelfCallViolation, []⟩
  else
    match self.tokens.lookup token_id with
    | none => ⟨self, Except.error MtError.TokenNotFound, []⟩
    | some _ =>
      let mustReturn := chain = ChainOutcome.failed ∨
                        chain = ChainOutcome.resolved true
      if mustReturn then
        ⟨self.setToken token_id
           ⟨previous_owner_id,
            restoredApprovals self.valid_account approvals⟩,
         Except.ok false, []⟩
      else
        ⟨self.setToken token_id ⟨receiver_id, []⟩,
         Except.ok true,
         MtTransfer.emit ⟨previous_owner_id, receiver_id, [token_id],
                          none, none⟩⟩

/-- Modelled from the spec: the `mt_transfer_call` entry point is not in
the repository snapshot; its authorization step follows the spec. The
caller must be the token's owner or hold a currently-valid approval; a
caller with no approval entry fails with `Unauthorized`, a caller
presenting an `approval_id` that no longer matches the ledger entry fails
with `ApprovalStale`; failures mutate nothing. On success the protocol
snapshots the approvals and tentatively moves ownership to `receiver_id`,
clearing the approval set, and returns the snapshot. -/
def mt_transfer_call_start (self : MtContract) (caller : AccountId)
    (receiver_id : AccountId) (token_id : TokenId)
    (approval_id : Option Nat) :
    CallResult (List (AccountId × Nat)) :=
  match self.tokens.lookup token_id with
  | none => ⟨self, Except.error MtError.TokenNotFound, []⟩
  | some tok =>
    if caller = tok.owner_id then
      ⟨self.setToken token_id ⟨receiver_id, []⟩,
       Except.ok tok.approvals, []⟩
    else
      match tok.approvals.lookup caller with
      | none => ⟨self, Except.error MtError.Unauthorized, []⟩
      | some stored =>
        match approval_id with
        | none =>
          ⟨self.setToken token_id ⟨receiver_id, []⟩,
           Except.ok tok.approvals, []⟩
        | some presented =>
          if presented = stored then
            ⟨self.setToken token_id ⟨receiver_id, []⟩,
             Except.ok tok.approvals, []⟩
          else
            ⟨self, Except.error MtError.ApprovalStale, []⟩

/-!
## Approval granting

`approval_receiver.rs` only declares the notification callback
`mt_on_approve`; the granting logic living on the MT contract is not in
the snapshot. Per the spec, each token carries a monotonically increasing
approval-id counter and every grant — including a re-grant to the same
account — consumes a fresh, strictly larger id.
-/

/-- Per-token approval ledger together with the next approval id to
issue. -/
structure ApprovalLedger where
  approvals : List (AccountId × Nat)
  next_approval_id : Nat
deriving DecidableEq, Repr

/-- Insert or overwrite the approval entry of one account. -/
def upsertApproval (account : AccountId) (id : Nat) :
    List (AccountId × Nat) → List (AccountId × Nat)
  | [] => [(account, id)]
  | (a, v) :: rest =>
    if a = account then (a, id) :: rest
    else (a, v) :: upsertApproval account id rest

/-- Modelled from the spec: granting an approval stores the current
counter value as the account's approval id (replacing any previous entry
for that account) and bumps the counter; returns the issued id. -/
def grant_approval (st : ApprovalLedger) (account : AccountId) :
    ApprovalLedger × Nat :=
  (⟨upsertApproval account st.next_approval_id st.approvals,
    st.next_approval_id + 1⟩,
   st.next_approval_id)

/-- Run a sequence of grants, collecting the issued approval ids in
order. -/
def grant_many : ApprovalLedger → List AccountId → ApprovalLedger × List Nat
  | st, [] => (st, [])
  | st, a :: rest =>
    let r1 := grant_approval st a
    let r2 := grant_many r1.1 rest
    (r2.1, r1.2 :: r2.2)

/-- The `data` array of an envelope payload, when present. -/
def Json.dataArr (j : Json) : Option (List Json) :=
  match j.getField "data" with
  | some (Json.arr xs) => some xs
  | _ => none

end Nep246

namespace Nep246

/-!
## Theorems
-/

/-- Updating one key of a token map and looking that key up again yields
the new token, provided the key was present. -/
theorem lookup_update (l : List (TokenId × Token)) (tid : TokenId)
    (t : Token) (h : (l.lookup tid).isSome) :
    (setTokenList tid t l).lookup tid = some t := by
  induction l with
  | nil => simp [List.lookup] at h
  | cons hd tl ih =>
    rcases hd with ⟨k, v⟩
    by_cases hk : k = tid
    · subst hk
      simp only [setTokenList, if_pos rfl]
      simp [List.lookup]
    · have hk1 : (tid == k) = false := by
        simp only [beq_eq_false_iff_ne, ne_eq]
        exact fun e => hk e.symm
      simp only [setTokenList, if_neg hk]
      simp only [List.lookup, hk1] at h ⊢
      exact ih h

/-- C1: for every token with prior approval snapshot `A`, if the receiver
chain answers "return" (resolves with `true`) or the chain fails, then
after `mt_resolve_transfer` (invoked by the contract itself) the token's
owner is `previous_owner_id` again, the approval set is the snapshot
restricted to still-valid accounts — equal to `A` exactly when every
approved account remains valid — and the call returns `false`. -/
theorem c1_rollback_restores (self : MtContract) (prev recv : AccountId)
    (tid : TokenId) (A : List (AccountId × Nat)) (chain : ChainOutcome)
    (htok : (self.tokens.lookup tid).isSome)
    (hchain : chain = ChainOutcome.resolved true ∨
              chain = ChainOutcome.failed) :
    (mt_resolve_transfer self self.account_id prev recv tid (some A)
       chain).outcome = Except.ok false ∧
    (mt_resolve_transfer self self.account_id prev recv tid (some A)
       chain).state.tokens.lookup tid =
      some ⟨prev, A.filter (fun p => self.valid_account p.1)⟩ ∧
    ((∀ p ∈ A, self.valid_account p.1 = true) →
      (mt_resolve_transfer self self.account_id prev recv tid (some A)
         chain).state.tokens.lookup tid = some ⟨prev, A⟩) := by
  have hself : ¬ (self.account_id ≠ self.account_id) := fun hc => hc rfl
  have hmr : chain = ChainOutcome.failed ∨
             chain = ChainOutcome.resolved true := hchain.elim Or.inr Or.inl
  rcases hlk : self.tokens.lookup tid with _ | tok
  · rw [hlk] at htok
    simp at htok
  · have hres : mt_resolve_transfer self self.account_id prev recv tid
        (some A) chain =
        ⟨self.setToken tid
           ⟨prev, restoredApprovals self.valid_account (some A)⟩,
         Except.ok false, []⟩ := by
      simp only [mt_resolve_transfer, hlk]
      rw [if_neg hself, if_pos hmr]
    have hl := lookup_update self.tokens tid
      ⟨prev, restoredApprovals self.valid_account (some A)⟩ htok
    refine ⟨by rw [hres], ?_, ?_⟩
    · rw [hres]
      exact hl
    · intro hvalid
      have hfil : restoredApprovals self.valid_account (some A) = A := by
        simp only [restoredApprovals]
        exact List.filter_eq_self.mpr hvalid
      have hsome :
          some (⟨prev, restoredApprovals self.valid_account (some A)⟩ :
            Token) = some ⟨prev, A⟩ := by
        rw [hfil]
      rw [hres]
      exact hl.trans hsome

/-- C1 witness: rollback of a transfer of token `"t0"` from `bob` to
`alice` with snapshot `{carol ↦ 1}`, receiver answering "return". -/
theorem c1_rollback_restores_witness :
    ((⟨"mt", [("t0", ⟨"bob", [("carol", 1)]⟩)],
       fun _ => true⟩ : MtContract).tokens.lookup "t0").isSome ∧
    (mt_resolve_transfer
       ⟨"mt", [("t0", ⟨"bob", [("carol", 1)]⟩)], fun _ => true⟩ "mt"
       "bob" "alice" "t0" (some [("carol", 1)])
       (ChainOutcome.resolved true)).outcome = Except.ok false ∧
    (mt_resolve_transfer
       ⟨"mt", [("t0", ⟨"bob", [("carol", 1)]⟩)], fun _ => true⟩ "mt"
       "bob" "alice" "t0" (some [("carol", 1)])
       (ChainOutcome.resolved true)).state.tokens.lookup "t0" =
      some ⟨"bob", [("carol", 1)]⟩ :=
  have h := c1_rollback_restores
    ⟨"mt", [("t0", ⟨"bob", [("carol", 1)]⟩)], fun _ => true⟩
    "bob" "alice" "t0" [("carol", 1)] (ChainOutcome.resolved true)
    (by rfl) (Or.inl rfl)
  ⟨by rfl, h.1, h.2.2 (by decide)⟩

/-- C2: for every token, if the receiver chain answers "keep" (resolves
with `false`), then after `mt_resolve_transfer` (invoked by the contract
itself) the token's owner is `receiver_id`, its approval set is empty,
and the call returns `true`. -/
theorem c2_keep_finalizes (self : MtContract) (prev recv : AccountId)
    (tid : TokenId) (A : List (AccountId × Nat))
    (htok : (self.tokens.lookup tid).isSome) :
    (mt_resolve_transfer self self.account_id prev recv tid (some A)
       (ChainOutcome.resolved false)).outcome = Except.ok true ∧
    (mt_resolve_transfer self self.account_id prev recv tid (some A)
       (ChainOutcome.resolved false)).state.tokens.lookup tid =
      some ⟨recv, []⟩ := by
  have hself : ¬ (self.account_id ≠ self.account_id) := fun hc => hc rfl
  have hmr : ¬ (ChainOutcome.resolved false = ChainOutcome.failed ∨
                ChainOutcome.resolved false =
                  ChainOutcome.resolved true) := by decide
  rcases hlk : self.tokens.lookup tid with _ | tok
  · rw [hlk] at htok
    simp at htok
  · have hres : mt_resolve_transfer self self.account_id prev recv tid
        (some A) (ChainOutcome.resolved false) =
        ⟨self.setToken tid ⟨recv, []⟩, Except.ok true,
         MtTransfer.emit ⟨prev, recv, [tid], none, none⟩⟩ := by
      simp only [mt_resolve_transfer, hlk]
      rw [if_neg hself, if_neg hmr]
    refine ⟨by rw [hres], ?_⟩
    rw [hres]
    exact lookup_update self.tokens tid ⟨recv, []⟩ htok

/-- C2 witness: the receiver keeps token `"t0"`; ownership settles on
`alice` with no approvals and the call returns `true`. -/
theorem c2_keep_finalizes_witness :
    ((⟨"mt", [("t0", ⟨"bob", [("carol", 1)]⟩)],
       fun _ => true⟩ : MtContract).tokens.lookup "t0").isSome ∧
    (mt_resolve_transfer
       ⟨"mt", [("t0", ⟨"bob", [("carol", 1)]⟩)], fun _ => true⟩ "mt"
       "bob" "alice" "t0" (some [("carol", 1)])
       (ChainOutcome.resolved false)).outcome = Except.ok true ∧
    (mt_resolve_transfer
       ⟨"mt", [("t0", ⟨"bob", [("carol", 1)]⟩)], fun _ => true⟩ "mt"
       "bob" "alice" "t0" (some [("carol", 1)])
       (ChainOutcome.resolved false)).state.tokens.lookup "t0" =
      some ⟨"alice", []⟩ :=
  have h := c2_keep_finalizes
    ⟨"mt", [("t0", ⟨"bob", [("carol", 1)]⟩)], fun _ => true⟩
    "bob" "alice" "t0" [("carol", 1)] (by rfl)
  ⟨by rfl, h.1, h.2⟩

/-- C3: for every caller other than the contract itself,
`mt_resolve_transfer` fails with `SelfCallViolation` and returns the
contract state unchanged, emitting nothing — only the contract itself may
finalize. -/
theorem c3_self_call_only (self : MtContract) (caller prev recv : AccountId)
    (tid : TokenId) (approvals : Option (List (AccountId × Nat)))
    (chain : ChainOutcome) (h : caller ≠ self.account_id) :
    mt_resolve_transfer self caller prev recv tid approvals chain =
      ⟨self, Except.error MtError.SelfCallViolation, []⟩ := by
  simp only [mt_resolve_transfer]
  rw [if_pos h]

/-- C3 witness: `eve` calling the finalize entry point of contract `mt`
gets `SelfCallViolation` and the state is returned untouched. -/
theorem c3_self_call_only_witness :
    ("eve" : AccountId) ≠ "mt" ∧
    mt_resolve_transfer
      ⟨"mt", [("t0", ⟨"bob", []⟩)], fun _ => true⟩ "eve" "bob" "alice"
      "t0" none ChainOutcome.failed =
      ⟨⟨"mt", [("t0", ⟨"bob", []⟩)], fun _ => true⟩,
       Except.error MtError.SelfCallViolation, []⟩ :=
  ⟨by decide,
   c3_self_call_only ⟨"mt", [("t0", ⟨"bob", []⟩)], fun _ => true⟩
     "eve" "bob" "alice" "t0" none ChainOutcome.failed (by decide)⟩

/-- The transfer-call initiation step never emits a log line; only
finalize does. -/
theorem start_logs_nil (self : MtContract) (caller recv : AccountId)
    (tid : TokenId) (aid : Option Nat) :
    (mt_transfer_call_start self caller recv tid aid).logs = [] := by
  simp only [mt_transfer_call_start]
  rcases self.tokens.lookup tid with _ | tok
  · rfl
  · dsimp only
    by_cases h1 : caller = tok.owner_id
    · rw [if_pos h1]
    · rw [if_neg h1]
      rcases tok.approvals.lookup caller with _ | stored
      · rfl
      · dsimp only
        rcases aid with _ | presented
        · rfl
        · dsimp only
          by_cases h2 : presented = stored
          · rw [if_pos h2]
          · rw [if_neg h2]

/-- C4: for an initiated transfer-call, finalize (invoked by the contract
itself on an existing token) emits an `mt_transfer` event if and only if
it reaches the "keep" outcome, in which case the single emitted envelope
is exactly `MtTransfer.emit` of the record with
`old_owner_id = previous_owner_id`, `new_owner_id = receiver_id`,
`token_ids = [token_id]`; on rollback nothing is emitted, and the
initiation step itself emits nothing. -/
theorem c4_event_iff_keep (self : MtContract) (caller0 prev recv : AccountId)
    (tid : TokenId) (approvals : Option (List (AccountId × Nat)))
    (chain : ChainOutcome) (aid : Option Nat)
    (htok : (self.tokens.lookup tid).isSome) :
    ((mt_resolve_transfer self self.account_id prev recv tid approvals
        chain).logs ≠ [] ↔ chain = ChainOutcome.resolved false) ∧
    (chain = ChainOutcome.resolved false →
      (mt_resolve_transfer self self.account_id prev recv tid approvals
         chain).logs = MtTransfer.emit ⟨prev, recv, [tid], none, none⟩) ∧
    (mt_transfer_call_start self caller0 recv tid aid).logs = [] := by
  have hself : ¬ (self.account_id ≠ self.account_id) := fun hc => hc rfl
  rcases hlk : self.tokens.lookup tid with _ | tok
  · rw [hlk] at htok
    simp at htok
  · refine ⟨?_, ?_, start_logs_nil self caller0 recv tid aid⟩
    · constructor
      · intro hne
        by_contra hc
        have hmr : chain = ChainOutcome.failed ∨
                   chain = ChainOutcome.resolved true := by
          rcases chain with b | _
          · rcases b with _ | _
            · exact absurd rfl hc
            · exact Or.inr rfl
          · exact Or.inl rfl
        have : mt_resolve_transfer self self.account_id prev recv tid
            approvals chain =
            ⟨self.setToken tid
               ⟨prev, restoredApprovals self.valid_account approvals⟩,
             Except.ok false, []⟩ := by
          simp only [mt_resolve_transfer, hlk]
          rw [if_neg hself, if_pos hmr]
        rw [this] at hne
        exact hne rfl
      · intro hk
        subst hk
        have hmr : ¬ (ChainOutcome.resolved false = ChainOutcome.failed ∨
                      ChainOutcome.resolved false =
                        ChainOutcome.resolved true) := by decide
        have : mt_resolve_transfer self self.account_id prev recv tid
            approvals (ChainOutcome.resolved false) =
            ⟨self.setToken tid ⟨recv, []⟩, Except.ok true,
             MtTransfer.emit ⟨prev, recv, [tid], none, none⟩⟩ := by
          simp only [mt_resolve_transfer, hlk]
          rw [if_neg hself, if_neg hmr]
        rw [this]
        simp [MtTransfer.emit, MtTransfer.emit_many, NearEvent.emit]
    · intro hk
      subst hk
      have hmr : ¬ (ChainOutcome.resolved false = ChainOutcome.failed ∨
                    ChainOutcome.resolved false =
                      ChainOutcome.resolved true) := by decide
      have : mt_resolve_transfer self self.account_id prev recv tid
          approvals (ChainOutcome.resolved false) =
          ⟨self.setToken tid ⟨recv, []⟩, Except.ok true,
           MtTransfer.emit ⟨prev, recv, [tid], none, none⟩⟩ := by
        simp only [mt_resolve_transfer, hlk]
        rw [if_neg hself, if_neg hmr]
      rw [this]

/-- C4 witness: keeping emits exactly the transfer envelope; the "return"
outcome emits nothing. -/
theorem c4_event_iff_keep_witness :
    ((⟨"mt", [("t0", ⟨"bob", []⟩)],
       fun _ => true⟩ : MtContract).tokens.lookup "t0").isSome ∧
    ((mt_resolve_transfer ⟨"mt", [("t0", ⟨"bob", []⟩)], fun _ => true⟩
        "mt" "bob" "alice" "t0" none (ChainOutcome.resolved false)).logs
      ≠ [] ↔ ChainOutcome.resolved false = ChainOutcome.resolved false) ∧
    (mt_resolve_transfer ⟨"mt", [("t0", ⟨"bob", []⟩)], fun _ => true⟩
       "mt" "bob" "alice" "t0" none (ChainOutcome.resolved false)).logs =
      MtTransfer.emit ⟨"bob", "alice", ["t0"], none, none⟩ :=
  have h := c4_event_iff_keep
    ⟨"mt", [("t0", ⟨"bob", []⟩)], fun _ => true⟩ "eve" "bob" "alice"
    "t0" none (ChainOutcome.resolved false) none (by rfl)
  ⟨by rfl, h.1, h.2.1 rfl⟩

/-- C5: a transfer attempt whose caller is neither the token's owner nor
the holder of a currently-valid approval (either no ledger entry, or a
presented approval id that no longer matches the stored one) fails with
`Unauthorized` (respectively `ApprovalStale`) and returns the contract
state — owner and approval set included — exactly unchanged. -/
theorem c5_unauthorized_no_mutation (self : MtContract)
    (caller recv : AccountId) (tid : TokenId) (aid : Option Nat)
    (tok : Token) (htok : self.tokens.lookup tid = some tok)
    (howner : caller ≠ tok.owner_id)
    (hbad : tok.approvals.lookup caller = none ∨
            (∃ stored presented,
              tok.approvals.lookup caller = some stored ∧
              aid = some presented ∧ presented ≠ stored)) :
    (mt_transfer_call_start self caller recv tid aid).state = self ∧
    ((mt_transfer_call_start self caller recv tid aid).outcome =
        Except.error MtError.Unauthorized ∨
     (mt_transfer_call_start self caller recv tid aid).outcome =
        Except.error MtError.ApprovalStale) ∧
    (mt_transfer_call_start self caller recv tid aid).state.tokens.lookup
      tid = some tok := by
  rcases hbad with hnone | ⟨stored, presented, hs, ha, hne⟩
  · have hres : mt_transfer_call_start self caller recv tid aid =
        ⟨self, Except.error MtError.Unauthorized, []⟩ := by
      simp only [mt_transfer_call_start, htok, hnone]
      rw [if_neg howner]
    rw [hres]
    exact ⟨rfl, Or.inl rfl, htok⟩
  · have hres : mt_transfer_call_start self caller recv tid aid =
        ⟨self, Except.error MtError.ApprovalStale, []⟩ := by
      simp only [mt_transfer_call_start, htok, hs, ha]
      rw [if_neg howner, if_neg hne]
    rw [hres]
    exact ⟨rfl, Or.inr rfl, htok⟩

/-- C5 witness: `eve`, who is not the owner and holds no approval on
`"t0"`, attempts the transfer and is rejected with no mutation. -/
theorem c5_unauthorized_no_mutation_witness :
    ((⟨"mt", [("t0", ⟨"bob", [("carol", 1)]⟩)],
       fun _ => true⟩ : MtContract).tokens.lookup "t0" =
      some ⟨"bob", [("carol", 1)]⟩) ∧
    ("eve" : AccountId) ≠ "bob" ∧
    ([("carol", 1)] : List (AccountId × Nat)).lookup "eve" = none ∧
    (mt_transfer_call_start
       ⟨"mt", [("t0", ⟨"bob", [("carol", 1)]⟩)], fun _ => true⟩
       "eve" "alice" "t0" none).state =
      ⟨"mt", [("t0", ⟨"bob", [("carol", 1)]⟩)], fun _ => true⟩ ∧
    ((mt_transfer_call_start
        ⟨"mt", [("t0", ⟨"bob", [("carol", 1)]⟩)], fun _ => true⟩
        "eve" "alice" "t0" none).outcome =
       Except.error MtError.Unauthorized ∨
     (mt_transfer_call_start
        ⟨"mt", [("t0", ⟨"bob", [("carol", 1)]⟩)], fun _ => true⟩
        "eve" "alice" "t0" none).outcome =
       Except.error MtError.ApprovalStale) :=
  have h := c5_unauthorized_no_mutation
    ⟨"mt", [("t0", ⟨"bob", [("carol", 1)]⟩)], fun _ => true⟩
    "eve" "alice" "t0" none ⟨"bob", [("carol", 1)]⟩ (by rfl)
    (by decide) (Or.inl (by rfl))
  ⟨by rfl, by decide, by rfl, h.1, h.2.1⟩

/-- The ids issued by a run of grants are the consecutive naturals
starting at the ledger's counter. -/
theorem grant_many_ids (st : ApprovalLedger) (accts : List AccountId) :
    (grant_many st accts).2 =
      List.range' st.next_approval_id accts.length := by
  induction accts generalizing st with
  | nil => rfl
  | cons a rest ih =>
    simp only [grant_many, grant_approval, ih]
    rfl

/-- C6 counterexample: a sequence of `2 ^ 53 + 2` grants on one fresh
token — an explicit, concrete grant sequence — makes the modelled
per-token counter issue the approval id `2 ^ 53 + 1`, strictly exceeding
`2 ^ 53`; so "each approval_id stays within 2^53" does not hold over
every grant sequence. -/
theorem c6_id_exceeds_2pow53 :
    ∃ i ∈ (grant_many ⟨[], 0⟩
             (List.replicate (2 ^ 53 + 2) "carol")).2, 2 ^ 53 < i := by
  rw [grant_many_ids, List.length_replicate, ← List.range_eq_range']
  exact ⟨2 ^ 53 + 1, List.mem_range.mpr (Nat.lt_succ_self _),
         Nat.lt_succ_self _⟩

/-- C6 amended: across every sequence of approval grants on a fresh
token — re-grants to the same account included — the issued approval ids
are unconditionally strictly increasing in order of issuance (each new id
exceeds every previously issued one); and every issued id stays below
`2 ^ 53` provided at most `2 ^ 53` grants are made on the token (the
counter increments without bound, so the JSON-representability limit
holds only for such sequences). -/
theorem c6_approval_ids_monotone (accts : List AccountId) :
    List.Pairwise (· < ·) (grant_many ⟨[], 0⟩ accts).2 ∧
    (accts.length ≤ 2 ^ 53 →
      ∀ i ∈ (grant_many ⟨[], 0⟩ accts).2, i < 2 ^ 53) := by
  rw [grant_many_ids ⟨[], 0⟩ accts]
  rw [← List.range_eq_range']
  constructor
  · exact List.pairwise_lt_range accts.length
  · intro hlen i hi
    exact lt_of_lt_of_le (List.mem_range.mp hi) hlen

/-- C6 witness: three grants — `carol` twice, then `dan` — issue ids
`0 < 1 < 2`, all below `2 ^ 53`. -/
theorem c6_approval_ids_monotone_witness :
    List.Pairwise (· < ·)
      (grant_many ⟨[], 0⟩ ["carol", "carol", "dan"]).2 ∧
    (["carol", "carol", "dan"] : List AccountId).length ≤ 2 ^ 53 ∧
    ∀ i ∈ (grant_many ⟨[], 0⟩ ["carol", "carol", "dan"]).2, i < 2 ^ 53 :=
  have h := c6_approval_ids_monotone ["carol", "carol", "dan"]
  ⟨h.1, by norm_num, h.2 (by norm_num)⟩

/-- C7: every emitted event envelope carries `standard: "nep246"`,
`version: "1.0.0"` and an event tag that is one of exactly `mt_mint`,
`mt_transfer`, `mt_burn`, with the per-action records under the `data`
key. All public emission entry points funnel through `new_246_v1`, so
quantifying over the event kind covers every emission. -/
theorem c7_envelope_standard_version_tag (k : Nep246EventKind) :
    (new_246_v1 k).emit =
      [Json.obj [("standard", Json.str "nep246"),
                 ("version", Json.str "1.0.0"),
                 ("event", Json.str k.tag),
                 ("data", k.dataJson)]] ∧
    (k.tag = "mt_mint" ∨ k.tag = "mt_transfer" ∨ k.tag = "mt_burn") := by
  cases k with
  | MtMint d => exact ⟨rfl, Or.inl rfl⟩
  | MtTransfer d => exact ⟨rfl, Or.inr (Or.inl rfl)⟩
  | MtBurn d => exact ⟨rfl, Or.inr (Or.inr rfl)⟩

/-- C9: for every list of records passed to `emit_many` (all three record
kinds), exactly one log line is produced, and its `data` array lists the
serialized records in the same order as the input list. -/
theorem c9_emit_many_one_line_ordered (dm : List MtMint) (dt : List MtTransfer)
    (db : List MtBurn) :
    MtMint.emit_many dm =
      [Json.obj [("standard", Json.str "nep246"),
                 ("version", Json.str "1.0.0"),
                 ("event", Json.str "mt_mint"),
                 ("data", Json.arr (dm.map MtMint.toJson))]] ∧
    MtTransfer.emit_many dt =
      [Json.obj [("standard", Json.str "nep246"),
                 ("version", Json.str "1.0.0"),
                 ("event", Json.str "mt_transfer"),
                 ("data", Json.arr (dt.map MtTransfer.toJson))]] ∧
    MtBurn.emit_many db =
      [Json.obj [("standard", Json.str "nep246"),
                 ("version", Json.str "1.0.0"),
                 ("event", Json.str "mt_burn"),
                 ("data", Json.arr (db.map MtBurn.toJson))]] :=
  ⟨rfl, rfl, rfl⟩

/-- C10 counterexample: `MtMint::emit_many` is a public emission entry
point, and calling it on the empty batch emits one envelope whose `data`
array is empty — zero records, refuting "the encoded data array contains
at least one record" for every call through the public interface. -/
theorem c10_emit_many_empty_batch :
    MtMint.emit_many [] =
      [Json.obj [("standard", Json.str "nep246"),
                 ("version", Json.str "1.0.0"),
                 ("event", Json.str "mt_mint"),
                 ("data", Json.arr [])]] :=
  rfl

/-- C10 amended: `emit` always produces a `data` array with exactly one
record, and `emit_many` produces one record per input, so its `data`
array is non-empty whenever the input batch is non-empty (the code does
not guard against an empty batch). -/
theorem c10_data_nonempty (m : MtMint) (t : MtTransfer) (b : MtBurn)
    (dm : List MtMint) (dt : List MtTransfer) (db : List MtBurn)
    (hm : dm ≠ []) (ht : dt ≠ []) (hb : db ≠ []) :
    ((MtMint.emit m).head?.bind Json.dataArr = some [m.toJson]) ∧
    ((MtTransfer.emit t).head?.bind Json.dataArr = some [t.toJson]) ∧
    ((MtBurn.emit b).head?.bind Json.dataArr = some [b.toJson]) ∧
    (∃ xs, (MtMint.emit_many dm).head?.bind Json.dataArr = some xs ∧
           xs ≠ []) ∧
    (∃ xs, (MtTransfer.emit_many dt).head?.bind Json.dataArr = some xs ∧
           xs ≠ []) ∧
    (∃ xs, (MtBurn.emit_many db).head?.bind Json.dataArr = some xs ∧
           xs ≠ []) := by
  refine ⟨rfl, rfl, rfl, ⟨dm.map MtMint.toJson, rfl, ?_⟩,
          ⟨dt.map MtTransfer.toJson, rfl, ?_⟩,
          ⟨db.map MtBurn.toJson, rfl, ?_⟩⟩ <;>
    simp_all

/-- A successful association-list lookup returns one of the stored
values. -/
theorem lookup_some_mem {β : Type} {l : List (String × β)} {k : String}
    {v : β} (h : l.lookup k = some v) : ∃ a, (a, v) ∈ l := by
  induction l with
  | nil => simp [List.lookup] at h
  | cons hd tl ih =>
    rcases hd with ⟨a, b⟩
    by_cases hk : (k == a) = true
    · refine ⟨a, ?_⟩
      simp [List.lookup, hk] at h
      simp [h]
    · simp [List.lookup, hk] at h
      rcases ih h with ⟨a2, hmem⟩
      exact ⟨a2, List.mem_cons_of_mem _ hmem⟩

/-- No field of a serialized `MtMint` record is JSON `null`. -/
theorem mtMint_getField_ne_null (m : MtMint) (k : String) :
    m.toJson.getField k ≠ some Json.null := by
  rcases m with ⟨o, tids, memo⟩
  rcases memo with _ | s <;>
  · intro h
    simp only [MtMint.toJson, Json.getField, List.append_nil] at h
    rcases lookup_some_mem h with ⟨a, hmem⟩
    simp at hmem

/-- No field of a serialized `MtTransfer` record is JSON `null`. -/
theorem mtTransfer_getField_ne_null (t : MtTransfer) (k : String) :
    t.toJson.getField k ≠ some Json.null := by
  rcases t with ⟨oo, no, tids, auth, memo⟩
  rcases auth with _ | a <;> rcases memo with _ | s <;>
  · intro h
    simp only [MtTransfer.toJson, Json.getField, List.append_nil,
               List.nil_append, List.append_assoc, List.cons_append] at h
    rcases lookup_some_mem h with ⟨a2, hmem⟩
    simp at hmem

/-- No field of a serialized `MtBurn` record is JSON `null`. -/
theorem mtBurn_getField_ne_null (b : MtBurn) (k : String) :
    b.toJson.getField k ≠ some Json.null := by
  rcases b with ⟨o, tids, auth, memo⟩
  rcases auth with _ | a <;> rcases memo with _ | s <;>
  · intro h
    simp only [MtBurn.toJson, Json.getField, List.append_nil,
               List.nil_append, List.append_assoc, List.cons_append] at h
    rcases lookup_some_mem h with ⟨a2, hmem⟩
    simp at hmem

/-- C8: for every record whose `memo` (or `authorized_id`) is `None`, the
encoded JSON omits that key entirely — it does not appear among the
object's keys — and no field of any record is ever encoded as JSON
`null`. -/
theorem c8_none_fields_omitted (m : MtMint) (t : MtTransfer) (b : MtBurn) :
    (m.memo = none → "memo" ∉ m.toJson.keys) ∧
    (t.memo = none → "memo" ∉ t.toJson.keys) ∧
    (t.authorized_id = none → "authorized_id" ∉ t.toJson.keys) ∧
    (b.memo = none → "memo" ∉ b.toJson.keys) ∧
    (b.authorized_id = none → "authorized_id" ∉ b.toJson.keys) ∧
    (∀ k, m.toJson.getField k ≠ some Json.null) ∧
    (∀ k, t.toJson.getField k ≠ some Json.null) ∧
    (∀ k, b.toJson.getField k ≠ some Json.null) := by
  refine ⟨?_, ?_, ?_, ?_, ?_, mtMint_getField_ne_null m,
          mtTransfer_getField_ne_null t, mtBurn_getField_ne_null b⟩
  · intro hm
    simp [MtMint.toJson, hm, Json.keys]
  · intro hm
    rcases ha : t.authorized_id with _ | a <;>
      simp [MtTransfer.toJson, hm, ha, Json.keys]
  · intro ha
    rcases hm : t.memo with _ | s <;>
      simp [MtTransfer.toJson, hm, ha, Json.keys]
  · intro hm
    rcases ha : b.authorized_id with _ | a <;>
      simp [MtBurn.toJson, hm, ha, Json.keys]
  · intro ha
    rcases hm : b.memo with _ | s <;>
      simp [MtBurn.toJson, hm, ha, Json.keys]

/-- C8 witness: the omission theorem applied to concrete records with all
optional fields absent. -/
theorem c8_none_fields_omitted_witness :
    ((⟨"bob", ["0"], none⟩ : MtMint).memo = none) ∧
    "memo" ∉ (MtMint.toJson ⟨"bob", ["0"], none⟩).keys ∧
    "memo" ∉ (MtTransfer.toJson ⟨"bob", "alice", ["0"], none, none⟩).keys ∧
    "authorized_id" ∉
      (MtTransfer.toJson ⟨"bob", "alice", ["0"], none, none⟩).keys ∧
    "memo" ∉ (MtBurn.toJson ⟨"bob", ["0"], none, none⟩).keys ∧
    "authorized_id" ∉ (MtBurn.toJson ⟨"bob", ["0"], none, none⟩).keys ∧
    (MtMint.toJson ⟨"bob", ["0"], none⟩).getField "memo" ≠
      some Json.null :=
  ⟨rfl,
   (c8_none_fields_omitted ⟨"bob", ["0"], none⟩
      ⟨"bob", "alice", ["0"], none, none⟩ ⟨"bob", ["0"], none, none⟩).1 rfl,
   (c8_none_fields_omitted ⟨"bob", ["0"], none⟩
      ⟨"bob", "alice", ["0"], none, none⟩
      ⟨"bob", ["0"], none, none⟩).2.1 rfl,
   (c8_none_fields_omitted ⟨"bob", ["0"], none⟩
      ⟨"bob", "alice", ["0"], none, none⟩
      ⟨"bob", ["0"], none, none⟩).2.2.1 rfl,
   (c8_none_fields_omitted ⟨"bob", ["0"], none⟩
      ⟨"bob", "alice", ["0"], none, none⟩
      ⟨"bob", ["0"], none, none⟩).2.2.2.1 rfl,
   (c8_none_fields_omitted ⟨"bob", ["0"], none⟩
      ⟨"bob", "alice", ["0"], none, none⟩
      ⟨"bob", ["0"], none, none⟩).2.2.2.2.1 rfl,
   (c8_none_fields_omitted ⟨"bob", ["0"], none⟩
      ⟨"bob", "alice", ["0"], none, none⟩
      ⟨"bob", ["0"], none, none⟩).2.2.2.2.2.1 "memo"⟩

/-- C10 witness: the amended theorem applied to concrete singleton
batches. -/
theorem c10_data_nonempty_witness :
    (([⟨"bob", ["0"], none⟩] : List MtMint) ≠ []) ∧
    (([⟨"bob", "alice", ["0"], none, none⟩] : List MtTransfer) ≠ []) ∧
    (([⟨"bob", ["0"], none, none⟩] : List MtBurn) ≠ []) ∧
    ((MtMint.emit ⟨"bob", ["0"], none⟩).head?.bind Json.dataArr =
      some [MtMint.toJson ⟨"bob", ["0"], none⟩]) ∧
    (∃ xs, (MtMint.emit_many [⟨"bob", ["0"], none⟩]).head?.bind
             Json.dataArr = some xs ∧ xs ≠ []) :=
  ⟨by decide, by decide, by decide,
   (c10_data_nonempty ⟨"bob", ["0"], none⟩
      ⟨"bob", "alice", ["0"], none, none⟩ ⟨"bob", ["0"], none, none⟩
      [⟨"bob", ["0"], none⟩] [⟨"bob", "alice", ["0"], none, none⟩]
      [⟨"bob", ["0"], none, none⟩]
      (by decide) (by decide) (by decide)).1,
   (c10_data_nonempty ⟨"bob", ["0"], none⟩
      ⟨"bob", "alice", ["0"], none, none⟩ ⟨"bob", ["0"], none, none⟩
      [⟨"bob", ["0"], none⟩] [⟨"bob", "alice", ["0"], none, none⟩]
      [⟨"bob", ["0"], none, none⟩]
      (by decide) (by decide) (by decide)).2.2.2.1⟩

end Nep246
